import Mathlib

/-!
Verification of the SimaPro CSV importer (`bw2data/io/import_simapro.py`).

The importer is shallowly embedded: rows are lists of strings, Python dicts
are association lists with insertion-order update semantics, Python
exceptions are an explicit error type, and the external dataset store is a
state record threaded through the orchestrator.  Python `float` parsing,
`normalize_units` and `activity_hash` are external collaborators (spec §6;
their modules are not part of the importer) and are modelled as parameters
bundled in `Ctx`.
-/

namespace BW

/-- A CSV row: an ordered list of string fields (`csv.reader` output). -/
abbrev Row := List String

instance {ε α : Type} [DecidableEq ε] [DecidableEq α] :
    DecidableEq (Except ε α) := fun x y =>
  match x, y with
  | Except.ok a, Except.ok b =>
      if h : a = b then isTrue (by rw [h]) else isFalse (by simp [h])
  | Except.ok _, Except.error _ => isFalse (by simp)
  | Except.error _, Except.ok _ => isFalse (by simp)
  | Except.error e, Except.error f =>
      if h : e = f then isTrue (by rw [h]) else isFalse (by simp [h])

/-- Python list indexing `l[i]`: raises `IndexError` when out of range. -/
def pyIndex {Ex α : Type} (l : List α) (i : Nat) (e : Ex) : Except Ex α :=
  match l.get? i with
  | some a => Except.ok a
  | none => Except.error e

/-- Python slice `l[a:b]` for `a ≤ b` (clamps at the end of the list). -/
def pySlice {α : Type} (l : List α) (a b : Nat) : List α :=
  (l.drop a).take (b - a)

/-- Python dict `d[k] = v`: replace in place if `k` is present, else append. -/
def pySetItem {α β : Type} [BEq α] (d : List (α × β)) (k : α) (v : β) :
    List (α × β) :=
  if d.any (fun p => p.1 == k) then
    d.map (fun p => if p.1 == k then (p.1, v) else p)
  else d ++ [(k, v)]

/-- Python `dict(pairs)`: later pairs overwrite earlier ones. -/
def pyDict {α β : Type} [BEq α] (l : List (α × β)) : List (α × β) :=
  l.foldl (fun acc kv => pySetItem acc kv.1 kv.2) []

/-- Python `d.update(new)` on an association list. -/
def pyDictUpdate {α β : Type} [BEq α] (d new : List (α × β)) : List (α × β) :=
  new.foldl (fun acc kv => pySetItem acc kv.1 kv.2) d

/-- Python dict lookup (`k in d` / `d[k]`), as an `Option`. -/
def pyGet {α β : Type} [BEq α] (d : List (α × β)) (k : α) : Option β :=
  (d.find? (fun p => p.1 == k)).map Prod.snd

/-- Python `needle in hay` for strings, on character lists. -/
def listInfixOf (needle : List Char) : List Char → Bool
  | [] => needle.isEmpty
  | c :: t => List.isPrefixOf needle (c :: t) || listInfixOf needle t

/-- Python substring test `needle in hay`. -/
def strIn (needle hay : String) : Bool :=
  listInfixOf needle.data hay.data

/-- Accumulator loop for `pySplit`. -/
def pySplitAux (sep : Char) : List Char → List Char → List String
  | [], acc => [String.mk acc.reverse]
  | c :: t, acc =>
      if c == sep then String.mk acc.reverse :: pySplitAux sep t []
      else pySplitAux sep t (c :: acc)

/-- Python `s.split(sep)` for a one-character separator. -/
def pySplit (s : String) (sep : Char) : List String :=
  pySplitAux sep s.data []

/- ## Name Detoxifier

`detoxify_pattern = '/(?P<geo>[A-Z]{2,10})(/I)? [SU]$'`.  The regex is
anchored at the end of the string, so a match is a decomposition
`name ++ "/" ++ geo ++ opt ++ " " ++ q` with `geo` a run of 2–10 uppercase
letters, `opt ∈ {"", "/I"}` and `q ∈ {"S", "U"}`.  We recognise it from the
reversed character list. -/

/-- `[A-Z]` character class of the detoxify regex. -/
def isUpperAZ (c : Char) : Bool := decide ('A' ≤ c) && decide (c ≤ 'Z')

/-- From a reversed character list, read a maximal uppercase run (reversed
`geo` group, 2–10 chars) followed by `'/'`; return the remaining prefix
(re-reversed) and the geo (re-reversed). -/
def geoSlashRev (l : List Char) : Option (List Char × List Char) :=
  let geoRev := l.takeWhile isUpperAZ
  match l.dropWhile isUpperAZ with
  | c :: preRev =>
      if c == '/' && decide (2 ≤ geoRev.length) &&
          decide (geoRev.length ≤ 10) then
        some (preRev.reverse, geoRev.reverse)
      else none
  | [] => none

/-- Whether the detoxify regex matches the end of the string; on a match,
returns `(stripped name, geo)` as character lists (the `(/I)?` group is
tried first, mirroring the regex alternatives). -/
def detoxMatch (s : List Char) : Option (List Char × List Char) :=
  match s.reverse with
  | q :: sp :: rest =>
      if (q == 'S' || q == 'U') && sp == ' ' then
        match rest with
        | i :: sl :: rest2 =>
            if i == 'I' && sl == '/' then
              match geoSlashRev rest2 with
              | some r => some r
              | none => geoSlashRev rest
            else geoSlashRev rest
        | _ => geoSlashRev rest
      else none
  | _ => none

/-- `detoxify(string, log)`: on a regex match returns the name with the
suffix stripped and the geo group; on no match logs one warning and
returns the string unchanged with `False` (modelled as `none`).  The
second component counts the warnings written to the log. -/
def detoxify (s : String) : (String × Option String) × Nat :=
  match detoxMatch s.data with
  | some (name, geo) => ((String.mk name, some (String.mk geo)), 0)
  | none => ((s, none), 1)

example : detoxify "Electricity/CH U" = (("Electricity", some "CH"), 0) := by
  decide

example : detoxify "Odd Name" = (("Odd Name", none), 1) := by decide

example : detoxify "Steel/RER/I S" = (("Steel", some "RER"), 0) := by decide

/- ## Data model -/

/-- `SIMAPRO_BIOSPHERE`: reserved environmental-flow category labels. -/
def SIMAPRO_BIOSPHERE : List String :=
  ["Resources", "Emissions to air", "Emissions to water", "Emissions to soil"]

/-- The value bound to `exc["input"]`: either a foreground code
`(db_name, activity_hash)` or a key of a background dependency database. -/
inductive LinkIn (H K : Type) where
  | code (c : String × H)
  | bgkey (k : K)
deriving DecidableEq

/-- An exchange dict.  Every field is optional, mirroring Python dict keys:
`none` means the key is absent.  The `location` value itself is
`Option String` because `detoxify` yields either a geo string or `False`
(modelled `none`). -/
structure Exchange (F H K : Type) where
  name : Option String := none
  amount : Option F := none
  comment : Option String := none
  unit : Option String := none
  uncertainty : Option String := none
  location : Option (Option String) := none
  input : Option (LinkIn H K) := none
  uncertaintyType : Option Nat := none
  type : Option String := none
deriving DecidableEq

/-- A metadata value: a scalar string or a multi-line list of strings. -/
inductive MetaVal where
  | s (v : String)
  | l (vs : List String)
deriving DecidableEq

/-- The dict built by `define_dataset` (name, unit, location, categories
plus the derived `code`). -/
structure DSDef (H : Type) where
  name : String
  unit : String
  location : String
  categories : List String
  code : String × H
deriving DecidableEq

/-- The structured dataset produced by `process_data`. -/
structure Dataset (F H K : Type) where
  ddef : DSDef H
  metadata : List (String × MetaVal)
  exchanges : List (Exchange F H K)
deriving DecidableEq

/-- Python exceptions raised by the importer.  `Ex` is the type of the
exchange carried by a `MissingExchange` error (the code attaches
`pprint.pformat(exc)`). -/
inductive PyErr (Ex : Type) where
  | indexError
  | typeError
  | nameErrorLabel
  | keyError
  | valueError (s : String)
  | assertionError (msg : String)
  | attributeError (attr : String)
  | missingDependency (db : String)
  | missingExchange (exc : Ex)
deriving DecidableEq

/-- Result type of the fallible importer methods. -/
abbrev Res (F H K : Type) (α : Type) := Except (PyErr (Exchange F H K)) α

/-- External collaborators (spec §6), passed as parameters: Python
`float()` (`none` models `ValueError`; we keep the parsed value abstract
to avoid floating-point semantics), `normalize_units`, and
`activity_hash` applied to the `(name, unit, location, categories)`
dict built by `define_dataset`. -/
structure Ctx (F H : Type) where
  pfloat : String → Option F
  normU : String → String
  ahash : String → String → String → List String → H

/-- The importer object state set up by `SimaProImporter.__init__`
(fields that influence the computation; the log itself is not modelled). -/
structure SimaProImporter where
  depends : List String := ["ecoinvent 2.2"]
  overwrite : Bool := false
  db_name : Option String := none
  default_geo : String := "GLO"

/- ## Segmenter and per-block extractors -/

/-- The marker condition of `get_process_indices`:
`data[x] and data[x][0] == "Process" and len(data[x]) == 1`. -/
def isProcessMarker (r : Row) : Bool :=
  !r.isEmpty && r.headD "" == "Process" && r.length == 1

/-- The marker indices collected by `get_process_indices`: row indices
from 2 onward whose row is a single-field `"Process"` row. -/
def markerIndices (data : List Row) : List Nat :=
  (List.range data.length).filter
    (fun x => decide (2 ≤ x) && isProcessMarker (data.getD x []))

/-- `get_process_indices`: the marker indices plus the sentinel
`len(data) + 1`. -/
def get_process_indices (data : List Row) : List Nat :=
  markerIndices data ++ [data.length + 1]

/-- The dataset-splitting part of `clean_data`:
`[data[idx[x]:idx[x+1]] for x in range(len(idx) - 1)]`. -/
def split_blocks (data : List Row) : List (List Row) :=
  let idx := get_process_indices data
  (List.range (idx.length - 1)).map
    (fun x => pySlice data (idx.getD x 0) (idx.getD (x + 1) 0))

/-- The list of blocks cut at consecutive indices: structural companion
of the slice comprehension in `clean_data`. -/
def chop (data : List Row) : List Nat → List (List Row)
  | a :: b :: rest => pySlice data a b :: chop data (b :: rest)
  | _ => []

/-- The database-name resolution part of `clean_data`: when no name was
given, assert `data[1][0] == 'Project'` and take `data[1][1]`. -/
def resolve_db_name {Ex : Type} (imp : SimaProImporter) (data : List Row) :
    Except (PyErr Ex) String :=
  match imp.db_name with
  | some n => Except.ok n
  | none => do
      let r1 ← pyIndex data 1 PyErr.indexError
      let f0 ← pyIndex r1 0 PyErr.indexError
      if f0 == "Project" then pyIndex r1 1 PyErr.indexError
      else (Except.error
        (PyErr.assertionError "Can\x27t determine SimaPro project name"))

/-- The row condition of `get_exchanges_index`:
`dataset[x] and dataset[x][0] == 'Products'`. -/
def isProductsRow (r : Row) : Bool :=
  match r with
  | f :: _ => f == "Products"
  | [] => false

/-- `get_exchanges_index`: index of the first `Products` row, `None`
(here `none`) when there is no such row. -/
def get_exchanges_index (dataset : List Row) : Option Nat :=
  (List.range dataset.length).find?
    (fun x => isProductsRow (dataset.getD x []))

/-- Using `get_exchanges_index`'s result as an integer: `None + k` raises
`TypeError` in Python. -/
def exchangesIndex {F H K : Type} (dataset : List Row) : Res F H K Nat :=
  match get_exchanges_index dataset with
  | some x => Except.ok x
  | none => Except.error PyErr.typeError

/-- `define_dataset`: read the block's own definition from the row after
the `Products` row — field 0 through `detoxify`, field 2 through
`normalize_units`, field 5 split on backslashes — and derive the code
`(db_name, activity_hash(data))`. -/
def define_dataset {F H K : Type} (ctx : Ctx F H) (dbName defaultGeo : String)
    (dataset : List Row) : Res F H K (DSDef H) := do
  let p ← (exchangesIndex dataset : Res F H K Nat)
  let line ← pyIndex dataset (p + 1) PyErr.indexError
  let f0 ← pyIndex line 0 PyErr.indexError
  let ng := (detoxify f0).1
  let f2 ← pyIndex line 2 PyErr.indexError
  let f5 ← pyIndex line 5 PyErr.indexError
  let name := ng.1
  let unit := ctx.normU f2
  let location := match ng.2 with
    | some g => g
    | none => defaultGeo
  let categories := pySplit f5 '\\'
  Except.ok
    { name := name, unit := unit, location := location,
      categories := categories,
      code := (dbName, ctx.ahash name unit location categories) }

/-- The metadata guard
`bool(line and len(line) > 1 and line[0] and line[1])`. -/
def metadataRowOk (line : Row) : Bool :=
  decide (1 < line.length) && line.getD 0 "" != "" && line.getD 1 "" != ""

/-- The continuation-row condition
`dataset[index + 1] and not dataset[index + 1][0]`. -/
def isContinuationRow (r : Row) : Bool :=
  !r.isEmpty && r.headD "" == ""

/-- `itertools.takewhile(lambda y: y and not y[0], rows)`. -/
def takeBlanks (rows : List Row) : List Row :=
  rows.takeWhile isContinuationRow

/-- `[x[1] for x in rows]`, raising `IndexError` on a short row. -/
def seconds {Ex : Type} : List Row → Except (PyErr Ex) (List String)
  | [] => Except.ok []
  | r :: rs => do
      let v ← pyIndex r 1 PyErr.indexError
      let vs ← seconds rs
      Except.ok (v :: vs)

/-- The scan of `get_dataset_metadata`: stop at the `Products` row, skip
rows failing the guard, and store scalar or multi-line entries with dict
overwrite semantics. -/
def get_dataset_metadata_go {Ex : Type} (acc : List (String × MetaVal)) :
    List Row → Except (PyErr Ex) (List (String × MetaVal))
  | [] => Except.ok acc
  | line :: rest =>
      if isProductsRow line then Except.ok acc
      else if !metadataRowOk line then get_dataset_metadata_go acc rest
      else
        match rest with
        | [] => Except.error PyErr.indexError
        | next :: _ =>
            if isContinuationRow next then do
              let key ← pyIndex line 0 PyErr.indexError
              let v0 ← pyIndex line 1 PyErr.indexError
              let vs ← seconds (takeBlanks rest)
              get_dataset_metadata_go
                (pySetItem acc key (MetaVal.l (v0 :: vs))) rest
            else do
              let key ← pyIndex line 0 PyErr.indexError
              let v ← pyIndex line 1 PyErr.indexError
              get_dataset_metadata_go (pySetItem acc key (MetaVal.s v)) rest

/-- `get_dataset_metadata`. -/
def get_dataset_metadata {Ex : Type} (dataset : List Row) :
    Except (PyErr Ex) (List (String × MetaVal)) :=
  get_dataset_metadata_go [] dataset

/-- The exchange built from one table row under the current category
label: name/location via `detoxify` on field 0, `float(line[1])`,
`normalize_units(line[2])`, raw uncertainty field 3. -/
def line_to_exchange {F H K : Type} (ctx : Ctx F H) (label : String)
    (line : Row) : Res F H K (Exchange F H K) := do
  let f0 ← pyIndex line 0 PyErr.indexError
  let ng := (detoxify f0).1
  let f1 ← pyIndex line 1 PyErr.indexError
  let amt ← match ctx.pfloat f1 with
    | some a => Except.ok a
    | none => Except.error (PyErr.valueError f1)
  let f2 ← pyIndex line 2 PyErr.indexError
  let f3 ← pyIndex line 3 PyErr.indexError
  Except.ok
    { name := some ng.1, amount := some amt, comment := some label,
      unit := some (ctx.normU f2), uncertainty := some f3,
      location := some ng.2 }

/-- The loop of `get_exchanges` over `dataset[x + 3:]`, with the current
category label threaded explicitly.  `label = none` models the Python
local variable being unbound, so reading it raises a name error. -/
def get_exchanges_go {F H K : Type} (ctx : Ctx F H) (label : Option String) :
    List Row → Res F H K (List (Exchange F H K))
  | [] => Except.ok []
  | line :: rest =>
      if line.length == 0 then get_exchanges_go ctx label rest
      else if line.length == 1 then
        get_exchanges_go ctx (some (line.headD "")) rest
      else
        match label with
        | none => Except.error PyErr.nameErrorLabel
        | some lab =>
            if lab ∈ SIMAPRO_BIOSPHERE then get_exchanges_go ctx label rest
            else do
              let e ← line_to_exchange ctx lab line
              let es ← get_exchanges_go ctx label rest
              Except.ok (e :: es)

/-- `get_exchanges`: multi-output assertion on row `x + 2`, then the scan
from row `x + 3`. -/
def get_exchanges {F H K : Type} (ctx : Ctx F H) (dataset : List Row) :
    Res F H K (List (Exchange F H K)) := do
  let x ← (exchangesIndex dataset : Res F H K Nat)
  let r2 ← pyIndex dataset (x + 2) PyErr.indexError
  if r2.length != 0 then
    Except.error (PyErr.assertionError "Can\x27t import multioutput datasets")
  else get_exchanges_go ctx none (dataset.drop (x + 3))

/-- `get_production_exchange`: amount from field 1 of the definition row,
input the dataset's own code, type `production`. -/
def get_production_exchange {F H K : Type} (ctx : Ctx F H) (d : DSDef H)
    (dataset : List Row) : Res F H K (Exchange F H K) := do
  let x ← (exchangesIndex dataset : Res F H K Nat)
  let line ← pyIndex dataset (x + 1) PyErr.indexError
  let f1 ← pyIndex line 1 PyErr.indexError
  let amt ← match ctx.pfloat f1 with
    | some a => Except.ok a
    | none => Except.error (PyErr.valueError f1)
  Except.ok
    { amount := some amt, input := some (LinkIn.code d.code),
      uncertaintyType := some 0, type := some "production" }

/-- `process_data`: definition, metadata, exchanges, then the appended
production exchange. -/
def process_data {F H K : Type} (ctx : Ctx F H) (dbName defaultGeo : String)
    (dataset : List Row) : Res F H K (Dataset F H K) := do
  let d ← define_dataset ctx dbName defaultGeo dataset
  let md ← get_dataset_metadata dataset
  let exs ← get_exchanges ctx dataset
  let prod ← get_production_exchange ctx d dataset
  Except.ok { ddef := d, metadata := md, exchanges := exs ++ [prod] }

/- ## Foreground and Background indices -/

/-- `create_foreground`:
`dict([((ds['name'], ds['unit']), ds['code']) for ds in data])`. -/
def create_foreground {F H K : Type} (data : List (Dataset F H K)) :
    List ((String × String) × (String × H)) :=
  pyDict (data.map (fun ds => ((ds.ddef.name, ds.ddef.unit), ds.ddef.code)))

/-- A record of a background dependency database, as consumed by
`load_background` (`value['name']`, `value['unit']`, `value['location']`). -/
structure BgRecord where
  name : String
  unit : String
  location : String
deriving DecidableEq

/-- The background dict: it is keyed by both
`(name.lower(), unit, location)` triples and `(name.lower(), unit)`
pairs, kept here as two maps since the tuple arities are disjoint. -/
structure Background (K : Type) where
  bg3 : List ((String × String × Option String) × K) := []
  bg2 : List ((String × String) × K) := []
deriving DecidableEq

/-- One `for key, value in background_data.iteritems()` step of the
background-index build. -/
def bgInsert {K : Type} [BEq K] (b : Background K) (kv : K × BgRecord) :
    Background K :=
  { bg3 := pySetItem b.bg3 (kv.2.name.toLower, kv.2.unit, some kv.2.location)
      kv.1,
    bg2 := pySetItem b.bg2 (kv.2.name.toLower, kv.2.unit) kv.1 }

/-- The index-building loop of `load_background`. -/
def build_background {K : Type} [BEq K] (bd : List (K × BgRecord)) :
    Background K :=
  bd.foldl bgInsert {}

/- ## External store

Modelled from the spec: the persistent dataset store and the `databases`
metadata registry (spec §6) — the backend classes implementing
`register`, `write`, `process` and `load` are not part of the importer
sources, so the store is a state record with the collection names
present, the loadable content of each collection, and a trace of the
mutating calls made on it. -/

/-- A mutating call on the external store. -/
inductive StoreEvent (F H K : Type) where
  | register (db : String) (format : String) (depends : List String)
      (numProcesses : Nat)
  | write (db : String) (data : List ((String × H) × Dataset F H K))
  | process (db : String)
deriving DecidableEq

/-- Modelled from the spec: the external store state (spec §6): collection
names (`databases` membership), loadable per-collection content keyed by
reference keys, and the trace of mutating calls. -/
structure Store (F H K : Type) where
  names : List String
  content : List (String × List (K × BgRecord))
  events : List (StoreEvent F H K)
deriving DecidableEq

/-- Modelled from the spec: `database.register(format, depends,
num_processes)` records provenance and makes the collection exist. -/
def Store.register {F H K : Type} (s : Store F H K) (db format : String)
    (depends : List String) (n : Nat) : Store F H K :=
  { s with names := s.names ++ [db],
           events := s.events ++ [StoreEvent.register db format depends n] }

/-- Modelled from the spec: `database.write(data)`. -/
def Store.write {F H K : Type} (s : Store F H K) (db : String)
    (data : List ((String × H) × Dataset F H K)) : Store F H K :=
  { s with events := s.events ++ [StoreEvent.write db data] }

/-- Modelled from the spec: `database.process()`. -/
def Store.process {F H K : Type} (s : Store F H K) (db : String) :
    Store F H K :=
  { s with events := s.events ++ [StoreEvent.process db] }

/-- The accumulation loop of `load_background`:
`background_data.update(**Database(db).load())` per dependency, failing
when a dependency collection is absent (spec §4.8,
`MissingDependencyError`). -/
def load_background_data {F H K : Type} [BEq K] (store : Store F H K) :
    List String → List (K × BgRecord) →
    Res F H K (List (K × BgRecord))
  | [], acc => Except.ok acc
  | db :: rest, acc =>
      match pyGet store.content db with
      | some recs => load_background_data store rest (pyDictUpdate acc recs)
      | none => Except.error (PyErr.missingDependency db)

/-- `load_background`: accumulate all dependency records, then build the
index keyed by `(name.lower(), unit, location)` and `(name.lower(),
unit)`. -/
def load_background {F H K : Type} [BEq K] (store : Store F H K)
    (depends : List String) : Res F H K (Background K) := do
  let bd ← load_background_data store depends []
  Except.ok (build_background bd)

/- ## Exchange Linker -/

/-- Python dict read `exc[k]`: `KeyError` when the key is absent. -/
def dictRead {Ex α : Type} (v : Option α) : Except (PyErr Ex) α :=
  match v with
  | some a => Except.ok a
  | none => Except.error PyErr.keyError

/-- The update applied to a successfully linked exchange:
`exc["input"] = ...; exc["type"] = "technosphere";
exc['uncertainty type'] = 0`. -/
def linkedExc {F H K : Type} (exc : Exchange F H K) (inp : LinkIn H K) :
    Exchange F H K :=
  { exc with input := some inp, type := some "technosphere",
             uncertaintyType := some 0 }

/-- `link_exchange`: production exchanges pass through; otherwise try the
foreground on `(name, unit)`, then the background on
`(name.lower(), unit, location)` — the background branch appears twice
verbatim, as in the code — else raise `MissingExchange`. -/
def link_exchange {F H K : Type} [BEq H]
    (fg : List ((String × String) × (String × H))) (bg : Background K)
    (exc : Exchange F H K) : Res F H K (Exchange F H K) :=
  if exc.type == some "production" then Except.ok exc
  else do
    let name ← dictRead exc.name
    let unit ← dictRead exc.unit
    match pyGet fg (name, unit) with
    | some code => Except.ok (linkedExc exc (LinkIn.code code))
    | none => do
        let loc ← dictRead exc.location
        match pyGet bg.bg3 (name.toLower, unit, loc) with
        | some key => Except.ok (linkedExc exc (LinkIn.bgkey key))
        | none =>
            match pyGet bg.bg3 (name.toLower, unit, loc) with
            | some key => Except.ok (linkedExc exc (LinkIn.bgkey key))
            | none => Except.error (PyErr.missingExchange exc)

/-- Effectful `map` over a list in the `Except` monad (list
comprehensions over fallible methods). -/
def mapE {Ex α β : Type} (f : α → Except (PyErr Ex) β) :
    List α → Except (PyErr Ex) (List β)
  | [] => Except.ok []
  | a :: l => do
      let b ← f a
      let bs ← mapE f l
      Except.ok (b :: bs)

/-- `link_exchanges`: link every exchange of a dataset. -/
def link_exchanges {F H K : Type} [BEq H]
    (fg : List ((String × String) × (String × H))) (bg : Background K)
    (ds : Dataset F H K) : Res F H K (Dataset F H K) := do
  let exs ← mapE (link_exchange fg bg) ds.exchanges
  Except.ok { ds with exchanges := exs }

/- ## Import Orchestrator -/

/-- The store-free front of `importer`: verify the file
(`'SimaPro' in data[0][0]`), take the format string, resolve the database
name and split the blocks (`clean_data`), and structure every block
(`process_data`).  Returns `(format, db_name, datasets)`. -/
def parse_stage {F H K : Type} (ctx : Ctx F H) (imp : SimaProImporter)
    (raw : List Row) : Res F H K (String × String × List (Dataset F H K)) := do
  let r0 ← pyIndex raw 0 PyErr.indexError
  let f0 ← pyIndex r0 0 PyErr.indexError
  if !strIn "SimaPro" f0 then
    Except.error (PyErr.assertionError "File is not valid SimaPro export")
  else do
    let dbName ← resolve_db_name imp raw
    let datasets ←
      mapE (process_data ctx dbName imp.default_geo) (split_blocks raw)
    Except.ok (f0, dbName, datasets)

/-- The commit tail of `importer`: `database.write(dict([(obj['code'],
obj) for obj in data]))`, `database.process()`, then
`return self.db_name, self.logile` — the class has no attribute
`logile` (the constructor sets `logfile`), so the return statement
raises `AttributeError`. -/
def commit_stage {F H K : Type} [BEq H] (store : Store F H K)
    (dbName : String) (linked : List (Dataset F H K)) :
    Store F H K × Res F H K (String × String) :=
  let s1 := store.write dbName
    (pyDict (linked.map (fun obj => (obj.ddef.code, obj))))
  let s2 := s1.process dbName
  (s2, Except.error (PyErr.attributeError "logile"))

/-- `importer`: the full import run against an external store.  Returns
the final store state together with the run's outcome.  The
duplicate-name check (`assert self.db_name not in databases`) happens
only after linking; on the overwrite path with an existing name the code
calls `self.warning`, a method that does not exist, raising
`AttributeError`. -/
def importer {F H K : Type} [BEq H] [BEq K] (ctx : Ctx F H)
    (imp : SimaProImporter) (raw : List Row) (store : Store F H K) :
    Store F H K × Res F H K (String × String) :=
  match parse_stage ctx imp raw with
  | Except.error e => (store, Except.error e)
  | Except.ok (format, dbName, datasets) =>
      let fg := create_foreground datasets
      match load_background store imp.depends with
      | Except.error e => (store, Except.error e)
      | Except.ok bg =>
          match mapE (link_exchanges fg bg) datasets with
          | Except.error e => (store, Except.error e)
          | Except.ok linked =>
              if !imp.overwrite then
                if store.names.contains dbName then
                  (store, Except.error (PyErr.assertionError
                    "Already imported this project\nDelete existing database, give new name, or use ``overwrite``."))
                else
                  commit_stage
                    (store.register dbName format imp.depends linked.length)
                    dbName linked
              else
                if store.names.contains dbName then
                  (store, Except.error (PyErr.attributeError "warning"))
                else commit_stage store dbName linked

/- ## Reference two-tier linker

The spec (§4.9, §9) describes a strictly two-tier resolution —
foreground, then one background lookup — and flags the second, verbatim
background branch of `link_exchange` as dead code. -/

/-- The linker as the spec words it: production pass-through, foreground
on `(name, unit)`, background on `(name.lower(), unit, location)`, else
`MissingExchange` — with no third branch. -/
def link_exchange_two_tier {F H K : Type} [BEq H]
    (fg : List ((String × String) × (String × H))) (bg : Background K)
    (exc : Exchange F H K) : Res F H K (Exchange F H K) :=
  if exc.type == some "production" then Except.ok exc
  else do
    let name ← dictRead exc.name
    let unit ← dictRead exc.unit
    match pyGet fg (name, unit) with
    | some code => Except.ok (linkedExc exc (LinkIn.code code))
    | none => do
        let loc ← dictRead exc.location
        match pyGet bg.bg3 (name.toLower, unit, loc) with
        | some key => Except.ok (linkedExc exc (LinkIn.bgkey key))
        | none => Except.error (PyErr.missingExchange exc)

/- ## Sample instantiation used in concrete runs

`F := Nat` with `String.toNat?` as the abstract numeric parser,
`H := String` with a readable hash, `K := String` for background keys. -/

/-- A simple numeric parser for the sample context: accepts nonempty
digit strings, rejects anything else. -/
def natParse (s : String) : Option Nat :=
  s.data.foldl
    (fun acc c =>
      match acc with
      | none => none
      | some n =>
          if decide ('0' ≤ c) && decide (c ≤ '9') then
            some (n * 10 + (c.toNat - '0'.toNat))
          else none)
    (if s.data.isEmpty then none else some 0)

/-- Sample collaborator context for concrete runs. -/
def ctxW : Ctx Nat String :=
  { pfloat := natParse, normU := id,
    ahash := fun n u l c => String.intercalate "|" (n :: u :: l :: c) }

/-- Sample importer configuration: no dependencies, no overwrite. -/
def impW : SimaProImporter := { depends := [], overwrite := false }

/-- Sample importer configuration with `overwrite = true`. -/
def impOW : SimaProImporter := { depends := [], overwrite := true }

/-- A minimal well-formed SimaPro file: one process block producing
`Widget`, no table exchanges. -/
def rawW : List Row :=
  [["SimaPro export"],
   ["Project", "TestProj"],
   ["Process"],
   ["Products"],
   ["Widget/CH U", "1", "kg", "x", "y", "c\\d"],
   [],
   []]

/-- `rawW` extended with a `Materials` exchange that matches neither
index. -/
def rawU : List Row :=
  rawW ++ [["Materials"], ["Steel/DE U", "2", "kg", "unc"]]

/-- An empty external store. -/
def store0 : Store Nat String String :=
  { names := [], content := [], events := [] }

/-- A store in which the target collection name already exists. -/
def storeDup : Store Nat String String :=
  { names := ["TestProj"], content := [], events := [] }

/-- A raw (not yet linked) table exchange: the fields read by
`link_exchange` are present and no `type` key is set. -/
def wfRaw {F H K : Type} (e : Exchange F H K) : Prop :=
  e.name.isSome ∧ e.unit.isSome ∧ e.location.isSome ∧ e.type = none

/-- A concrete foreground and background for the C4 witness: the
exchange `Widget` matches both indices, and linking picks the
foreground code. -/
def fgW : List ((String × String) × (String × String)) :=
  [(("Widget", "kg"), ("TestProj", "fgcode"))]

/-- Background with a key that also matches the witness exchange. -/
def bgW : Background String :=
  { bg3 := [(("widget", "kg", some "CH"), "bgkey")], bg2 := [] }

/-- The witness exchange for C4: matches `fgW` on `(name, unit)` and
`bgW` on `(name.lower, unit, location)`. -/
def excW : Exchange Nat String String :=
  { name := some "Widget", amount := some 3, comment := some "Materials",
    unit := some "kg", uncertainty := some "u", location := some (some "CH") }

/-- A block whose exchange table holds one `Materials` exchange, used as
a concrete witness input. -/
def blockX : List Row :=
  [["Process"], ["Products"], ["Widget/CH U", "1", "kg", "x", "y", "c\\d"],
   [], [], ["Materials"], ["Steel/DE U", "2", "kg", "unc"]]

/-- The raw exchange extracted from `blockX`. -/
def steelExc : Exchange Nat String String :=
  { name := some "Steel", amount := some 2, comment := some "Materials",
    unit := some "kg", uncertainty := some "unc",
    location := some (some "DE") }

/-- The structured dataset produced from the single block of `rawU`:
the unlinkable `Steel` exchange followed by the production exchange. -/
def dsU : Dataset Nat String String :=
  { ddef := { name := "Widget", unit := "kg", location := "CH",
              categories := ["c", "d"],
              code := ("TestProj", "Widget|kg|CH|c|d") },
    metadata := [],
    exchanges := [steelExc,
                  { amount := some 1,
                    input := some (LinkIn.code
                      ("TestProj", "Widget|kg|CH|c|d")),
                    uncertaintyType := some 0,
                    type := some "production" }] }

/-- The structured dataset produced from the single block of `rawW`. -/
def dsW : Dataset Nat String String :=
  { ddef := { name := "Widget", unit := "kg", location := "CH",
              categories := ["c", "d"],
              code := ("TestProj", "Widget|kg|CH|c|d") },
    metadata := [],
    exchanges := [{ amount := some 1,
                    input := some (LinkIn.code
                      ("TestProj", "Widget|kg|CH|c|d")),
                    uncertaintyType := some 0,
                    type := some "production" }] }

/-- A block whose first exchange-table row is multi-field: reading the
label raises the name error. -/
def blockC10 : List Row :=
  [["Products"], ["W", "1", "kg", "", "", "c"], [], ["A", "B"]]

/-- A file whose third row is neither a header row nor a marker: the
blocks start only at the `Process` row, so row 2 is covered by nothing. -/
def cexC6 : List Row := [["A"], ["B"], ["C"], ["Process"]]

/- ## Theorems -/

/-- `Except` bind on a success. -/
theorem bind_ok {ε α β : Type} (a : α) (f : α → Except ε β) :
    (Except.ok a >>= f : Except ε β) = f a := rfl

/-- `Except` bind on a failure. -/
theorem bind_err {ε α β : Type} (e : ε) (f : α → Except ε β) :
    (Except.error e >>= f : Except ε β) = Except.error e := rfl

/-- Any `Except.ok` outcome of `link_exchange` on a non-production
exchange is `linkedExc exc inp` for some link target. -/
theorem link_exchange_ok_shape {F H K : Type} [BEq H]
    (fg : List ((String × String) × (String × H))) (bg : Background K)
    (exc exc' : Exchange F H K) (hty : exc.type ≠ some "production")
    (h : link_exchange fg bg exc = Except.ok exc') :
    ∃ inp, exc' = linkedExc exc inp := by
  have hb : (exc.type == some "production") = false := by
    simp [beq_eq_false_iff_ne, hty]
  unfold link_exchange at h
  rw [hb] at h
  simp only [Bool.false_eq_true, if_false] at h
  cases hn : exc.name with
  | none => rw [hn] at h; simp only [dictRead, bind_err] at h; cases h
  | some n =>
    rw [hn] at h
    simp only [dictRead, bind_ok] at h
    cases hu : exc.unit with
    | none => rw [hu] at h; simp only [bind_err] at h; cases h
    | some u =>
      rw [hu] at h
      simp only [bind_ok] at h
      cases hf : pyGet fg (n, u) with
      | some code =>
        rw [hf] at h
        simp only [Except.ok.injEq] at h
        exact ⟨LinkIn.code code, h.symm⟩
      | none =>
        rw [hf] at h
        cases hl : exc.location with
        | none => rw [hl] at h; simp only [dictRead, bind_err] at h; cases h
        | some loc =>
          rw [hl] at h
          simp only [dictRead, bind_ok] at h
          cases hb3 : pyGet bg.bg3 (n.toLower, u, loc) with
          | some key =>
            rw [hb3] at h
            simp only [Except.ok.injEq] at h
            exact ⟨LinkIn.bgkey key, h.symm⟩
          | none => rw [hb3] at h; cases h

/-- C9: removing the duplicated second background branch does not change
`link_exchange` on any exchange: the resolution is exactly two-tier
(foreground, then background). -/
theorem C9_dead_branch {F H K : Type} [BEq H]
    (fg : List ((String × String) × (String × H))) (bg : Background K)
    (exc : Exchange F H K) :
    link_exchange fg bg exc = link_exchange_two_tier fg bg exc := by
  unfold link_exchange link_exchange_two_tier
  cases exc.type == some "production" with
  | true => rfl
  | false =>
    simp only [Bool.false_eq_true, if_false]
    cases exc.name with
    | none => rfl
    | some n =>
      simp only [dictRead, bind_ok]
      cases exc.unit with
      | none => rfl
      | some u =>
        simp only [bind_ok]
        cases pyGet fg (n, u) with
        | some code => rfl
        | none =>
          cases exc.location with
          | none => rfl
          | some loc =>
            simp only [dictRead, bind_ok]
            cases pyGet bg.bg3 (n.toLower, u, loc) with
            | some key => rfl
            | none => rfl

/-- C4: a non-production exchange whose `(name, unit)` pair is a key of
the foreground index is linked to the foreground code — the background
index `bg` is arbitrary, so this holds in particular when the background
also has a matching key — and every successfully linked non-production
exchange gets `type = "technosphere"` and `uncertainty type = 0`. -/
theorem C4_foreground_precedence {F H K : Type} [BEq H]
    (fg : List ((String × String) × (String × H))) (bg : Background K) :
    (∀ (exc : Exchange F H K) (n u : String) (code : String × H),
      exc.type ≠ some "production" → exc.name = some n →
      exc.unit = some u → pyGet fg (n, u) = some code →
      link_exchange fg bg exc =
        Except.ok (linkedExc exc (LinkIn.code code))) ∧
    (∀ exc exc' : Exchange F H K, exc.type ≠ some "production" →
      link_exchange fg bg exc = Except.ok exc' →
      exc'.type = some "technosphere" ∧ exc'.uncertaintyType = some 0) := by
  constructor
  · intro exc n u code hty hn hu hfg
    have hb : (exc.type == some "production") = false := by
      simp [beq_eq_false_iff_ne, hty]
    unfold link_exchange
    rw [hb]
    simp only [Bool.false_eq_true, if_false, hn, hu, dictRead, bind_ok, hfg]
  · intro exc exc' hty h
    obtain ⟨inp, rfl⟩ := link_exchange_ok_shape fg bg exc exc' hty h
    exact ⟨rfl, rfl⟩

/-- Witness for C4 at a concrete exchange matching both indices. -/
theorem C4_foreground_precedence_witness :
    link_exchange fgW bgW excW =
      Except.ok (linkedExc excW (LinkIn.code ("TestProj", "fgcode"))) ∧
    excW.type ≠ some "production" ∧
    pyGet bgW.bg3 ("widget", "kg", some "CH") = some "bgkey" :=
  ⟨(C4_foreground_precedence fgW bgW).1 excW "Widget" "kg"
      ("TestProj", "fgcode") (by decide) rfl rfl (by decide),
   by decide, by decide⟩

/-- Fields of a raw exchange successfully built by `line_to_exchange`:
the category label lands in `comment`, name/amount/unit/location keys are
present and no `type` key is set. -/
theorem line_to_exchange_ok_fields {F H K : Type} (ctx : Ctx F H)
    (lab : String) (line : Row) (e : Exchange F H K)
    (h : line_to_exchange ctx lab line = Except.ok e) :
    e.comment = some lab ∧ e.name.isSome ∧ e.unit.isSome ∧
      e.location.isSome ∧ e.amount.isSome ∧ e.type = none := by
  unfold line_to_exchange at h
  cases h0 : line.get? 0 with
  | none => rw [pyIndex, h0, bind_err] at h; cases h
  | some f0 =>
    rw [pyIndex, h0] at h
    simp only [bind_ok] at h
    cases h1 : line.get? 1 with
    | none => rw [pyIndex, h1, bind_err] at h; cases h
    | some f1 =>
      rw [pyIndex, h1] at h
      simp only [bind_ok] at h
      cases hf : ctx.pfloat f1 with
      | none => rw [hf, bind_err] at h; cases h
      | some a =>
        rw [hf] at h
        simp only [bind_ok] at h
        cases h2 : line.get? 2 with
        | none => rw [pyIndex, h2, bind_err] at h; cases h
        | some f2 =>
          rw [pyIndex, h2] at h
          simp only [bind_ok] at h
          cases h3 : line.get? 3 with
          | none => rw [pyIndex, h3, bind_err] at h; cases h
          | some f3 =>
            rw [pyIndex, h3] at h
            simp only [bind_ok, Except.ok.injEq] at h
            subst h
            exact ⟨rfl, rfl, rfl, rfl, rfl, rfl⟩

/-- `line_to_exchange` never raises the unbound-label name error. -/
theorem line_to_exchange_ne_name_error {F H K : Type} (ctx : Ctx F H)
    (lab : String) (line : Row) :
    (line_to_exchange ctx lab line : Res F H K (Exchange F H K)) ≠
      Except.error PyErr.nameErrorLabel := by
  intro h
  unfold line_to_exchange at h
  cases h0 : line.get? 0 with
  | none => rw [pyIndex, h0, bind_err] at h; cases h
  | some f0 =>
    rw [pyIndex, h0] at h
    simp only [bind_ok] at h
    cases h1 : line.get? 1 with
    | none => rw [pyIndex, h1, bind_err] at h; cases h
    | some f1 =>
      rw [pyIndex, h1] at h
      simp only [bind_ok] at h
      cases hf : ctx.pfloat f1 with
      | none => rw [hf, bind_err] at h; cases h
      | some a =>
        rw [hf] at h
        simp only [bind_ok] at h
        cases h2 : line.get? 2 with
        | none => rw [pyIndex, h2, bind_err] at h; cases h
        | some f2 =>
          rw [pyIndex, h2] at h
          simp only [bind_ok] at h
          cases h3 : line.get? 3 with
          | none => rw [pyIndex, h3, bind_err] at h; cases h
          | some f3 =>
            rw [pyIndex, h3] at h
            simp only [bind_ok] at h
            cases h

/-- Every exchange in a successful `get_exchanges_go` run comes from a
row with at least two fields, under a current category label that is not
an environmental-flow label. -/
theorem get_exchanges_go_spec {F H K : Type} (ctx : Ctx F H)
    (label : Option String) (rows : List Row)
    (exs : List (Exchange F H K))
    (h : get_exchanges_go ctx label rows = Except.ok exs) :
    ∀ e ∈ exs, ∃ lab line, line ∈ rows ∧ 2 ≤ line.length ∧
      lab ∉ SIMAPRO_BIOSPHERE ∧
      line_to_exchange ctx lab line = Except.ok e := by
  induction rows generalizing label exs with
  | nil =>
    simp only [get_exchanges_go, Except.ok.injEq] at h
    subst h
    intro e he; cases he
  | cons line rest ih =>
    unfold get_exchanges_go at h
    by_cases h0 : (line.length == 0) = true
    · rw [if_pos h0] at h
      intro e he
      obtain ⟨lab, l, hl, h2, hb, he'⟩ := ih label exs h e he
      exact ⟨lab, l, List.mem_cons_of_mem _ hl, h2, hb, he'⟩
    · rw [if_neg h0] at h
      by_cases h1 : (line.length == 1) = true
      · rw [if_pos h1] at h
        intro e he
        obtain ⟨lab, l, hl, h2, hb, he'⟩ := ih _ exs h e he
        exact ⟨lab, l, List.mem_cons_of_mem _ hl, h2, hb, he'⟩
      · rw [if_neg h1] at h
        have hlen : 2 ≤ line.length := by
          have e0 : line.length ≠ 0 := by
            intro hc; exact h0 (by simp [hc])
          have e1 : line.length ≠ 1 := by
            intro hc; exact h1 (by simp [hc])
          omega
        cases label with
        | none => cases h
        | some lab =>
          dsimp only at h
          by_cases hbio : lab ∈ SIMAPRO_BIOSPHERE
          · rw [if_pos hbio] at h
            intro e he
            obtain ⟨lab', l, hl, h2, hb, he'⟩ := ih _ exs h e he
            exact ⟨lab', l, List.mem_cons_of_mem _ hl, h2, hb, he'⟩
          · rw [if_neg hbio] at h
            cases hlte : (line_to_exchange ctx lab line :
                Res F H K (Exchange F H K)) with
            | error err => rw [hlte, bind_err] at h; cases h
            | ok e0 =>
              rw [hlte] at h
              simp only [bind_ok] at h
              cases hg : (get_exchanges_go ctx (some lab) rest :
                  Res F H K (List (Exchange F H K))) with
              | error err => rw [hg, bind_err] at h; cases h
              | ok es =>
                rw [hg] at h
                simp only [bind_ok, Except.ok.injEq] at h
                subst h
                intro e he
                rcases List.mem_cons.mp he with rfl | he'
                · exact ⟨lab, line, List.mem_cons_self _ _, hlen, hbio, hlte⟩
                · obtain ⟨lab', l, hl, h2, hb, he''⟩ := ih _ es hg e he'
                  exact ⟨lab', l, List.mem_cons_of_mem _ hl, h2, hb, he''⟩

/-- Inversion of a successful `get_exchanges` run: the `Products` row
was found, the multi-output check passed, and the scan from row `p + 3`
produced the exchanges. -/
theorem get_exchanges_ok_inv {F H K : Type} (ctx : Ctx F H)
    (dataset : List Row) (exs : List (Exchange F H K))
    (h : get_exchanges ctx dataset = Except.ok exs) :
    ∃ p r2, get_exchanges_index dataset = some p ∧
      dataset.get? (p + 2) = some r2 ∧ r2.length = 0 ∧
      get_exchanges_go ctx none (dataset.drop (p + 3)) = Except.ok exs := by
  unfold get_exchanges at h
  cases hp : get_exchanges_index dataset with
  | none => rw [exchangesIndex, hp, bind_err] at h; cases h
  | some p =>
    rw [exchangesIndex, hp] at h
    dsimp only at h
    simp only [bind_ok] at h
    cases h2 : dataset.get? (p + 2) with
    | none => rw [pyIndex, h2, bind_err] at h; cases h
    | some r2 =>
      rw [pyIndex, h2] at h
      simp only [bind_ok] at h
      by_cases hz : (r2.length != 0) = true
      · rw [if_pos hz] at h; cases h
      · rw [if_neg hz] at h
        refine ⟨p, r2, rfl, h2, ?_, h⟩
        simpa using hz

/-- C8: in a successfully extracted exchange table, every exchange comes
from a row with at least two fields (single-field rows only set the
current label) under a category label outside the reserved
environmental-flow set; the label is recorded in the exchange's
`comment`. -/
theorem C8_biosphere_excluded {F H K : Type} (ctx : Ctx F H)
    (dataset : List Row) (exs : List (Exchange F H K))
    (h : get_exchanges ctx dataset = Except.ok exs) :
    ∀ e ∈ exs, ∃ p lab line, get_exchanges_index dataset = some p ∧
      line ∈ dataset.drop (p + 3) ∧ 2 ≤ line.length ∧
      lab ∉ SIMAPRO_BIOSPHERE ∧ e.comment = some lab ∧
      line_to_exchange ctx lab line = Except.ok e := by
  obtain ⟨p, r2, hp, h2, hz, hgo⟩ := get_exchanges_ok_inv ctx dataset exs h
  intro e he
  obtain ⟨lab, line, hl, hlen, hbio, hlte⟩ :=
    get_exchanges_go_spec ctx none (dataset.drop (p + 3)) exs hgo e he
  exact ⟨p, lab, line, hp, hl, hlen, hbio,
    (line_to_exchange_ok_fields ctx lab line e hlte).1, hlte⟩

/-- Inversion of a successful `get_production_exchange`: amount is the
parsed field 1 of the row after the `Products` row, and the exchange has
type `production` and the dataset's own code as input. -/
theorem get_production_exchange_ok_inv {F H K : Type} (ctx : Ctx F H)
    (d : DSDef H) (dataset : List Row) (prod : Exchange F H K)
    (h : get_production_exchange ctx d dataset = Except.ok prod) :
    ∃ p line f1 a, get_exchanges_index dataset = some p ∧
      dataset.get? (p + 1) = some line ∧ line.get? 1 = some f1 ∧
      ctx.pfloat f1 = some a ∧
      prod = { amount := some a, input := some (LinkIn.code d.code),
               uncertaintyType := some 0, type := some "production" } := by
  unfold get_production_exchange at h
  cases hp : get_exchanges_index dataset with
  | none => rw [exchangesIndex, hp, bind_err] at h; cases h
  | some p =>
    rw [exchangesIndex, hp] at h
    dsimp only at h
    simp only [bind_ok] at h
    cases hline : dataset.get? (p + 1) with
    | none => rw [pyIndex, hline, bind_err] at h; cases h
    | some line =>
      rw [pyIndex, hline] at h
      simp only [bind_ok] at h
      cases h1 : line.get? 1 with
      | none => rw [pyIndex, h1, bind_err] at h; cases h
      | some f1 =>
        rw [pyIndex, h1] at h
        simp only [bind_ok] at h
        cases hf : ctx.pfloat f1 with
        | none => rw [hf, bind_err] at h; cases h
        | some a =>
          rw [hf] at h
          simp only [bind_ok, Except.ok.injEq] at h
          exact ⟨p, line, f1, a, rfl, hline, h1, hf, h.symm⟩

/-- Inversion of a successful `process_data`: each stage succeeded and
the exchanges are the table exchanges followed by the production
exchange. -/
theorem process_data_ok_inv {F H K : Type} (ctx : Ctx F H)
    (dbName geo : String) (dataset : List Row) (ds : Dataset F H K)
    (h : process_data ctx dbName geo dataset = Except.ok ds) :
    ∃ d md exs prod,
      (define_dataset ctx dbName geo dataset : Res F H K (DSDef H)) =
        Except.ok d ∧
      (get_dataset_metadata dataset :
        Res F H K (List (String × MetaVal))) = Except.ok md ∧
      get_exchanges ctx dataset = Except.ok exs ∧
      get_production_exchange ctx d dataset = Except.ok prod ∧
      ds = ⟨d, md, exs ++ [prod]⟩ := by
  unfold process_data at h
  cases hd : (define_dataset ctx dbName geo dataset :
      Res F H K (DSDef H)) with
  | error err => rw [hd, bind_err] at h; cases h
  | ok d =>
    rw [hd] at h
    simp only [bind_ok] at h
    cases hmd : (get_dataset_metadata dataset :
        Res F H K (List (String × MetaVal))) with
    | error err => rw [hmd, bind_err] at h; cases h
    | ok md =>
      rw [hmd] at h
      simp only [bind_ok] at h
      cases hexs : (get_exchanges ctx dataset :
          Res F H K (List (Exchange F H K))) with
      | error err => rw [hexs, bind_err] at h; cases h
      | ok exs =>
        rw [hexs] at h
        simp only [bind_ok] at h
        cases hprod : (get_production_exchange ctx d dataset :
            Res F H K (Exchange F H K)) with
        | error err => rw [hprod, bind_err] at h; cases h
        | ok prod =>
          rw [hprod] at h
          simp only [bind_ok, Except.ok.injEq] at h
          exact ⟨d, md, exs, prod, rfl, rfl, rfl, hprod, h.symm⟩

/-- Every exchange of a successful `get_exchanges` run has no `type`
key. -/
theorem get_exchanges_type_none {F H K : Type} (ctx : Ctx F H)
    (dataset : List Row) (exs : List (Exchange F H K))
    (h : get_exchanges ctx dataset = Except.ok exs) :
    ∀ e ∈ exs, e.type = none := by
  obtain ⟨p, r2, hp, h2, hz, hgo⟩ := get_exchanges_ok_inv ctx dataset exs h
  intro e he
  obtain ⟨lab, line, _, _, _, hlte⟩ :=
    get_exchanges_go_spec ctx none (dataset.drop (p + 3)) exs hgo e he
  exact (line_to_exchange_ok_fields ctx lab line e hlte).2.2.2.2.2

/-- C5: every structured dataset holds exactly one exchange of type
`production`, and its amount is the parsed field 1 of the definition
line, the row after the block's `Products` marker. -/
theorem C5_unique_production {F H K : Type} (ctx : Ctx F H)
    (dbName geo : String) (dataset : List Row) (ds : Dataset F H K)
    (h : process_data ctx dbName geo dataset = Except.ok ds) :
    ds.exchanges.countP (fun e => e.type == some "production") = 1 ∧
    ∃ p line f1 a, get_exchanges_index dataset = some p ∧
      dataset.get? (p + 1) = some line ∧ line.get? 1 = some f1 ∧
      ctx.pfloat f1 = some a ∧
      ∀ e ∈ ds.exchanges, e.type = some "production" →
        e.amount = some a := by
  obtain ⟨d, md, exs, prod, hd, hmd, hexs, hprod, rfl⟩ :=
    process_data_ok_inv ctx dbName geo dataset ds h
  obtain ⟨p, line, f1, a, hp, hline, hf1, ha, rfl⟩ :=
    get_production_exchange_ok_inv ctx d dataset prod hprod
  have htypes := get_exchanges_type_none ctx dataset exs hexs
  constructor
  · simp only [List.countP_append]
    have hz : exs.countP (fun e => e.type == some "production") = 0 := by
      rw [List.countP_eq_zero]
      intro e he
      simp [htypes e he]
    rw [hz]
    simp [List.countP_cons]
  · refine ⟨p, line, f1, a, hp, hline, hf1, ha, ?_⟩
    intro e he hty
    rcases List.mem_append.mp he with he' | he'
    · rw [htypes e he'] at hty; cases hty
    · rcases List.mem_singleton.mp he' with rfl
      rfl

/-- Every exchange of a structured dataset is the production exchange or
a raw table exchange. -/
theorem process_data_exchange_wf {F H K : Type} (ctx : Ctx F H)
    (dbName geo : String) (dataset : List Row) (ds : Dataset F H K)
    (h : process_data ctx dbName geo dataset = Except.ok ds) :
    ∀ e ∈ ds.exchanges, e.type = some "production" ∨ wfRaw e := by
  obtain ⟨d, md, exs, prod, hd, hmd, hexs, hprod, rfl⟩ :=
    process_data_ok_inv ctx dbName geo dataset ds h
  obtain ⟨p, r2, hp, h2, hz, hgo⟩ := get_exchanges_ok_inv ctx dataset exs hexs
  intro e he
  rcases List.mem_append.mp he with he' | he'
  · obtain ⟨lab, line, _, _, _, hlte⟩ :=
      get_exchanges_go_spec ctx none (dataset.drop (p + 3)) exs hgo e he'
    obtain ⟨_, hn, hu, hl, _, hty⟩ :=
      line_to_exchange_ok_fields ctx lab line e hlte
    exact Or.inr ⟨hn, hu, hl, hty⟩
  · obtain ⟨_, _, _, _, _, _, _, _, hps⟩ :=
      get_production_exchange_ok_inv ctx d dataset prod hprod
    rw [List.mem_singleton.mp he', hps]
    exact Or.inl rfl

/-- `link_exchange` on a production or raw exchange either succeeds or
fails with `MissingExchange` carrying that very exchange. -/
theorem link_exchange_wf_cases {F H K : Type} [BEq H]
    (fg : List ((String × String) × (String × H))) (bg : Background K)
    (e : Exchange F H K) (hwf : e.type = some "production" ∨ wfRaw e) :
    (∃ e', link_exchange fg bg e = Except.ok e') ∨
      link_exchange fg bg e = Except.error (PyErr.missingExchange e) := by
  rcases hwf with hty | ⟨hn, hu, hl, hty⟩
  · left
    refine ⟨e, ?_⟩
    unfold link_exchange
    rw [hty]
    rfl
  · obtain ⟨n, hn⟩ := Option.isSome_iff_exists.mp hn
    obtain ⟨u, hu⟩ := Option.isSome_iff_exists.mp hu
    obtain ⟨loc, hl⟩ := Option.isSome_iff_exists.mp hl
    have hb : (e.type == some "production") = false := by rw [hty]; rfl
    unfold link_exchange
    rw [hb]
    simp only [Bool.false_eq_true, if_false]
    rw [hn, hu]
    simp only [dictRead, bind_ok]
    cases pyGet fg (n, u) with
    | some code => exact Or.inl ⟨_, rfl⟩
    | none =>
        rw [hl]
        simp only [dictRead, bind_ok]
        cases pyGet bg.bg3 (n.toLower, u, loc) with
        | some key => exact Or.inl ⟨_, rfl⟩
        | none => exact Or.inr rfl

/-- `link_exchange` on a raw exchange matching neither index fails with
`MissingExchange` carrying that exchange. -/
theorem link_exchange_unmatched {F H K : Type} [BEq H]
    (fg : List ((String × String) × (String × H))) (bg : Background K)
    (e : Exchange F H K) (n u : String) (loc : Option String)
    (hn : e.name = some n) (hu : e.unit = some u)
    (hl : e.location = some loc) (hty : e.type = none)
    (hfg : pyGet fg (n, u) = none)
    (hbg : pyGet bg.bg3 (n.toLower, u, loc) = none) :
    link_exchange fg bg e = Except.error (PyErr.missingExchange e) := by
  have hb : (e.type == some "production") = false := by rw [hty]; rfl
  unfold link_exchange
  rw [hb]
  simp only [Bool.false_eq_true, if_false]
  rw [hn, hu]
  simp only [dictRead, bind_ok]
  rw [hfg, hl]
  simp only [dictRead, bind_ok]
  rw [hbg]

/-- Members of a successful `mapE` image come from members of the input
list. -/
theorem mapE_ok_mem {Ex α β : Type} (f : α → Except (PyErr Ex) β)
    (l : List α) (bs : List β) (h : mapE f l = Except.ok bs) :
    ∀ b ∈ bs, ∃ a ∈ l, f a = Except.ok b := by
  induction l generalizing bs with
  | nil =>
    simp only [mapE, Except.ok.injEq] at h
    subst h
    intro b hb; cases hb
  | cons a t ih =>
    unfold mapE at h
    cases ha : f a with
    | error err => rw [ha, bind_err] at h; cases h
    | ok b0 =>
      rw [ha] at h
      simp only [bind_ok] at h
      cases ht : mapE f t with
      | error err => rw [ht, bind_err] at h; cases h
      | ok bs0 =>
        rw [ht] at h
        simp only [bind_ok, Except.ok.injEq] at h
        subst h
        intro b hb
        rcases List.mem_cons.mp hb with rfl | hb'
        · exact ⟨a, List.mem_cons_self _ _, ha⟩
        · obtain ⟨a', ha', hfa⟩ := ih bs0 ht b hb'
          exact ⟨a', List.mem_cons_of_mem _ ha', hfa⟩

/-- If every element maps to a success or a `MissingExchange` failure,
so does `mapE` as a whole. -/
theorem mapE_ok_or_missing {Ex α β : Type} (f : α → Except (PyErr Ex) β)
    (l : List α)
    (hall : ∀ a ∈ l, (∃ b, f a = Except.ok b) ∨
      ∃ x, f a = Except.error (PyErr.missingExchange x)) :
    (∃ bs, mapE f l = Except.ok bs) ∨
      ∃ x, mapE f l = Except.error (PyErr.missingExchange x) := by
  induction l with
  | nil => exact Or.inl ⟨[], rfl⟩
  | cons a t ih =>
    rcases hall a (List.mem_cons_self _ _) with ⟨b, hb⟩ | ⟨x, hx⟩
    · rcases ih (fun a' ha' => hall a' (List.mem_cons_of_mem _ ha')) with
        ⟨bs, hbs⟩ | ⟨x, hx⟩
      · left
        refine ⟨b :: bs, ?_⟩
        unfold mapE
        rw [hb]
        simp only [bind_ok]
        rw [hbs]
        rfl
      · right
        refine ⟨x, ?_⟩
        unfold mapE
        rw [hb]
        simp only [bind_ok]
        rw [hx]
        rfl
    · right
      refine ⟨x, ?_⟩
      unfold mapE
      rw [hx]
      rfl

/-- If some element maps to a `MissingExchange` failure and every
element maps to a success or a `MissingExchange` failure, `mapE` fails
with a `MissingExchange`. -/
theorem mapE_missing_of_mem {Ex α β : Type} (f : α → Except (PyErr Ex) β)
    (l : List α)
    (hall : ∀ a ∈ l, (∃ b, f a = Except.ok b) ∨
      ∃ x, f a = Except.error (PyErr.missingExchange x))
    (a : α) (ha : a ∈ l) (x : Ex)
    (hx : f a = Except.error (PyErr.missingExchange x)) :
    ∃ y, mapE f l = Except.error (PyErr.missingExchange y) := by
  induction l with
  | nil => cases ha
  | cons a0 t ih =>
    rcases hall a0 (List.mem_cons_self _ _) with ⟨b, hb⟩ | ⟨x0, hx0⟩
    · rcases List.mem_cons.mp ha with rfl | ha'
      · rw [hb] at hx; cases hx
      · obtain ⟨y, hy⟩ :=
          ih (fun a' h' => hall a' (List.mem_cons_of_mem _ h')) ha'
        refine ⟨y, ?_⟩
        unfold mapE
        rw [hb]
        simp only [bind_ok]
        rw [hy]
        rfl
    · refine ⟨x0, ?_⟩
      unfold mapE
      rw [hx0]
      rfl

/-- Inversion of a successful `parse_stage`. -/
theorem parse_stage_ok_inv {F H K : Type} (ctx : Ctx F H)
    (imp : SimaProImporter) (raw : List Row) (format dbName : String)
    (datasets : List (Dataset F H K))
    (h : parse_stage ctx imp raw = Except.ok (format, dbName, datasets)) :
    mapE (process_data ctx dbName imp.default_geo) (split_blocks raw) =
      Except.ok datasets := by
  unfold parse_stage at h
  cases h0 : raw.get? 0 with
  | none => rw [pyIndex, h0, bind_err] at h; cases h
  | some r0 =>
    rw [pyIndex, h0] at h
    simp only [bind_ok] at h
    cases h1 : r0.get? 0 with
    | none => rw [pyIndex, h1, bind_err] at h; cases h
    | some f0 =>
      rw [pyIndex, h1] at h
      simp only [bind_ok] at h
      by_cases hv : (!strIn "SimaPro" f0) = true
      · rw [if_pos hv] at h; cases h
      · rw [if_neg hv] at h
        cases hn : (resolve_db_name imp raw :
            Res F H K String) with
        | error err => rw [hn, bind_err] at h; cases h
        | ok dbn =>
          rw [hn] at h
          simp only [bind_ok] at h
          cases hm : mapE ((process_data ctx dbn imp.default_geo :
              List Row → Res F H K (Dataset F H K))) (split_blocks raw) with
          | error err => rw [hm, bind_err] at h; cases h
          | ok ds0 =>
            rw [hm] at h
            simp only [bind_ok, Except.ok.injEq, Prod.mk.injEq] at h
            obtain ⟨hf, hdb, hds⟩ := h
            subst hf; subst hdb; subst hds
            exact hm

/-- C1: a run in which some exchange of some block matches neither the
foreground nor the background index fails with the `MissingExchange`
error and leaves the external store exactly as it was: no register,
write or process call is recorded, since linking runs before the first
store write. -/
theorem C1_unlinked_aborts {F H K : Type} [BEq H] [BEq K] (ctx : Ctx F H)
    (imp : SimaProImporter) (raw : List Row) (store : Store F H K)
    (format dbName : String) (datasets : List (Dataset F H K))
    (bg : Background K)
    (hparse : parse_stage ctx imp raw = Except.ok (format, dbName, datasets))
    (hbg : load_background store imp.depends = Except.ok bg)
    (d : Dataset F H K) (hd : d ∈ datasets)
    (e : Exchange F H K) (he : e ∈ d.exchanges)
    (hty : e.type ≠ some "production")
    (hfg : pyGet (create_foreground datasets)
      (e.name.getD "", e.unit.getD "") = none)
    (hbg3 : pyGet bg.bg3
      ((e.name.getD "").toLower, e.unit.getD "",
        e.location.getD none) = none) :
    ∃ e', importer ctx imp raw store =
      (store, Except.error (PyErr.missingExchange e')) := by
  have hmap := parse_stage_ok_inv ctx imp raw format dbName datasets hparse
  -- every exchange of every parsed dataset is production or raw
  have hwf : ∀ ds ∈ datasets, ∀ ex ∈ ds.exchanges,
      ex.type = some "production" ∨ wfRaw ex := by
    intro ds hds ex hex
    obtain ⟨blk, _, hblk⟩ :=
      mapE_ok_mem _ (split_blocks raw) datasets hmap ds hds
    exact process_data_exchange_wf ctx dbName imp.default_geo blk ds hblk ex
      hex
  -- the distinguished exchange is raw and unmatched
  have hde := hwf d hd e he
  have hraw : wfRaw e := by
    rcases hde with hp | hr
    · exact absurd hp hty
    · exact hr
  obtain ⟨hn', hu', hl', htynone⟩ := hraw
  obtain ⟨n, hn⟩ := Option.isSome_iff_exists.mp hn'
  obtain ⟨u, hu⟩ := Option.isSome_iff_exists.mp hu'
  obtain ⟨loc, hl⟩ := Option.isSome_iff_exists.mp hl'
  have hgn : e.name.getD "" = n := by rw [hn]; rfl
  have hgu : e.unit.getD "" = u := by rw [hu]; rfl
  have hgl : e.location.getD none = loc := by rw [hl]; rfl
  rw [hgn, hgu] at hfg
  rw [hgn, hgu, hgl] at hbg3
  have herr := link_exchange_unmatched (create_foreground datasets) bg e n u
    loc hn hu hl htynone hfg hbg3
  -- each dataset links or fails with MissingExchange
  have hall : ∀ ds ∈ datasets,
      (∃ ds', link_exchanges (create_foreground datasets) bg ds =
        Except.ok ds') ∨
      ∃ x, link_exchanges (create_foreground datasets) bg ds =
        Except.error (PyErr.missingExchange x) := by
    intro ds hds
    have hexall : ∀ ex ∈ ds.exchanges,
        (∃ b, link_exchange (create_foreground datasets) bg ex =
          Except.ok b) ∨
        ∃ x, link_exchange (create_foreground datasets) bg ex =
          Except.error (PyErr.missingExchange x) := by
      intro ex hex
      rcases link_exchange_wf_cases (create_foreground datasets) bg ex
          (hwf ds hds ex hex) with hok | hmiss
      · exact Or.inl hok
      · exact Or.inr ⟨ex, hmiss⟩
    unfold link_exchanges
    rcases mapE_ok_or_missing _ ds.exchanges hexall with ⟨bs, hbs⟩ | ⟨x, hx⟩
    · left
      exact ⟨{ ds with exchanges := bs }, by rw [hbs]; rfl⟩
    · right
      refine ⟨x, ?_⟩
      rw [hx]
      rfl
  -- the distinguished dataset fails with MissingExchange
  have hdfail : ∃ x, link_exchanges (create_foreground datasets) bg d =
      Except.error (PyErr.missingExchange x) := by
    have hexall : ∀ ex ∈ d.exchanges,
        (∃ b, link_exchange (create_foreground datasets) bg ex =
          Except.ok b) ∨
        ∃ x, link_exchange (create_foreground datasets) bg ex =
          Except.error (PyErr.missingExchange x) := by
      intro ex hex
      rcases link_exchange_wf_cases (create_foreground datasets) bg ex
          (hwf d hd ex hex) with hok | hmiss
      · exact Or.inl hok
      · exact Or.inr ⟨ex, hmiss⟩
    obtain ⟨y, hy⟩ := mapE_missing_of_mem _ d.exchanges hexall e he e herr
    refine ⟨y, ?_⟩
    unfold link_exchanges
    rw [hy]
    rfl
  obtain ⟨x, hx⟩ := hdfail
  obtain ⟨y, hy⟩ := mapE_missing_of_mem
    (link_exchanges (create_foreground datasets) bg) datasets hall d hd x hx
  refine ⟨y, ?_⟩
  unfold importer
  rw [hparse]
  dsimp only
  rw [hbg]
  dsimp only
  rw [hy]

/-- Witness for C1: the run on `rawU` against an empty store fails with
`MissingExchange` and returns the store unchanged. -/
theorem C1_unlinked_aborts_witness :
    ∃ e', importer ctxW impW rawU store0 =
      (store0, Except.error (PyErr.missingExchange e')) :=
  C1_unlinked_aborts ctxW impW rawU store0 "SimaPro export" "TestProj"
    [dsU] {} (by decide) (by decide) dsU (by simp) steelExc (by decide)
    (by decide) (by decide) (by decide)

/-- Witness for C5 on the block of `rawW`. -/
theorem C5_unique_production_witness :
    dsW.exchanges.countP (fun e => e.type == some "production") = 1 ∧
    ∃ p line f1 a, get_exchanges_index (rawW.drop 2) = some p ∧
      (rawW.drop 2).get? (p + 1) = some line ∧ line.get? 1 = some f1 ∧
      ctxW.pfloat f1 = some a ∧
      ∀ e ∈ dsW.exchanges, e.type = some "production" →
        e.amount = some a :=
  C5_unique_production ctxW "TestProj" "GLO" (rawW.drop 2) dsW (by decide)

/-- Witness for C8 on `blockX`. -/
theorem C8_biosphere_excluded_witness :
    ∃ p lab line, get_exchanges_index blockX = some p ∧
      line ∈ blockX.drop (p + 3) ∧ 2 ≤ line.length ∧
      lab ∉ SIMAPRO_BIOSPHERE ∧ steelExc.comment = some lab ∧
      line_to_exchange ctxW lab line = Except.ok steelExc :=
  C8_biosphere_excluded ctxW blockX [steelExc] (by decide) steelExc (by simp)

/-- Scanning blank rows and then a multi-field row with the label still
unbound raises the unbound-local name error. -/
theorem get_exchanges_go_unbound {F H K : Type} (ctx : Ctx F H)
    (pre : List Row) (line : Row) (post : List Row)
    (hpre : ∀ r ∈ pre, r.length = 0) (hline : 2 ≤ line.length) :
    (get_exchanges_go ctx none (pre ++ line :: post) :
      Res F H K (List (Exchange F H K))) =
      Except.error PyErr.nameErrorLabel := by
  induction pre with
  | nil =>
    have h0 : (line.length == 0) = false := by
      simp only [beq_eq_false_iff_ne]; omega
    have h1 : (line.length == 1) = false := by
      simp only [beq_eq_false_iff_ne]; omega
    simp only [List.nil_append]
    unfold get_exchanges_go
    rw [h0, h1]
    rfl
  | cons r rs ih =>
    have hr : (r.length == 0) = true := by
      simp only [beq_iff_eq]
      exact hpre r (List.mem_cons_self _ _)
    simp only [List.cons_append]
    unfold get_exchanges_go
    rw [hr]
    simp only [if_true]
    exact ih (fun r' hr' => hpre r' (List.mem_cons_of_mem _ hr'))

/-- Once a category label is bound, the scan never raises the
unbound-local name error. -/
theorem get_exchanges_go_labelled {F H K : Type} (ctx : Ctx F H)
    (lab : String) (rows : List Row) :
    (get_exchanges_go ctx (some lab) rows :
      Res F H K (List (Exchange F H K))) ≠
      Except.error PyErr.nameErrorLabel := by
  induction rows generalizing lab with
  | nil => intro h; cases h
  | cons line rest ih =>
    intro h
    unfold get_exchanges_go at h
    by_cases h0 : (line.length == 0) = true
    · rw [if_pos h0] at h; exact ih lab h
    · rw [if_neg h0] at h
      by_cases h1 : (line.length == 1) = true
      · rw [if_pos h1] at h; exact ih _ h
      · rw [if_neg h1] at h
        dsimp only at h
        by_cases hbio : lab ∈ SIMAPRO_BIOSPHERE
        · rw [if_pos hbio] at h; exact ih lab h
        · rw [if_neg hbio] at h
          cases hlte : (line_to_exchange ctx lab line :
              Res F H K (Exchange F H K)) with
          | error err =>
            rw [hlte, bind_err] at h
            injection h with h'
            exact line_to_exchange_ne_name_error ctx lab line
              (by rw [hlte, h'])
          | ok e0 =>
            rw [hlte] at h
            simp only [bind_ok] at h
            cases hg : (get_exchanges_go ctx (some lab) rest :
                Res F H K (List (Exchange F H K))) with
            | error err =>
              rw [hg, bind_err] at h
              injection h with h'
              exact ih lab (by rw [hg, h'])
            | ok es => rw [hg] at h; simp only [bind_ok] at h; cases h

/-- C10: if, after the multi-output check, a row with two or more fields
precedes every single-field (label) row, `get_exchanges` reads the
unbound `label` local and fails with the name error; once a label row
has been seen the name error can no longer occur. -/
theorem C10_unbound_label {F H K : Type} (ctx : Ctx F H) :
    (∀ (dataset : List Row) (p : Nat) (pre : List Row) (line : Row)
        (post : List Row),
      get_exchanges_index dataset = some p →
      dataset.get? (p + 2) = some [] →
      dataset.drop (p + 3) = pre ++ line :: post →
      (∀ r ∈ pre, r.length = 0) → 2 ≤ line.length →
      (get_exchanges ctx dataset : Res F H K (List (Exchange F H K))) =
        Except.error PyErr.nameErrorLabel) ∧
    (∀ (rows : List Row) (lab : String),
      (get_exchanges_go ctx (some lab) rows :
        Res F H K (List (Exchange F H K))) ≠
        Except.error PyErr.nameErrorLabel) := by
  constructor
  · intro dataset p pre line post hp h2 hsplit hpre hline
    unfold get_exchanges
    rw [exchangesIndex, hp]
    dsimp only
    simp only [bind_ok]
    rw [pyIndex, h2]
    simp only [bind_ok, List.length_nil, bne_self_eq_false,
      Bool.false_eq_true, if_false]
    rw [hsplit]
    exact get_exchanges_go_unbound ctx pre line post hpre hline
  · exact fun rows lab => get_exchanges_go_labelled ctx lab rows

/-- Witness for C10: the unbound-label failure on `blockC10`, and the
absence of the name error once a label is bound. -/
theorem C10_unbound_label_witness :
    (get_exchanges ctxW blockC10 :
      Res Nat String String (List (Exchange Nat String String))) =
      Except.error PyErr.nameErrorLabel ∧
    (get_exchanges_go ctxW (some "Materials") [["A", "B", "C", "D"]] :
      Res Nat String String (List (Exchange Nat String String))) ≠
      Except.error PyErr.nameErrorLabel :=
  ⟨(C10_unbound_label ctxW).1 blockC10 0 [] ["A", "B"] [] rfl rfl rfl
      (by simp) (by decide),
   (C10_unbound_label ctxW).2 [["A", "B", "C", "D"]] "Materials"⟩

/-- C2 is violated by the code: on a run that reaches a successful
commit — register, write and process were all called — the return
statement reads the attribute `logile`, which the constructor never
sets (it sets `logfile`), so the entry point raises `AttributeError`
instead of returning `(collection_name, diagnostics_log_path)`. -/
theorem C2_return_bug :
    (importer ctxW impW rawW store0).2 =
      Except.error (PyErr.attributeError "logile") ∧
    ∃ wdata, (importer ctxW impW rawW store0).1.events =
      [StoreEvent.register "TestProj" "SimaPro export" [] 1,
       StoreEvent.write "TestProj" wdata,
       StoreEvent.process "TestProj"] :=
  ⟨by decide, ⟨[(("TestProj", "Widget|kg|CH|c|d"), dsW)], by decide⟩⟩

/-- C3's overwrite half is violated by the code: with `overwrite = true`
and the collection name present, the code calls `self.warning`, a
method that does not exist, so the run raises `AttributeError` and
nothing is replaced.  The non-overwrite half behaves as claimed: the
duplicate name fails the commit-time assertion with the store
untouched, and the check runs only after linking — an unlinkable
exchange still surfaces as `MissingExchange` even when the name is a
duplicate. -/
theorem C3_overwrite_bug :
    importer ctxW impOW rawW storeDup =
      (storeDup, Except.error (PyErr.attributeError "warning")) ∧
    importer ctxW impW rawW storeDup =
      (storeDup, Except.error (PyErr.assertionError
        "Already imported this project\nDelete existing database, give new name, or use ``overwrite``.")) ∧
    importer ctxW impW rawU storeDup =
      (storeDup, Except.error (PyErr.missingExchange steelExc)) :=
  ⟨by decide, by decide, by decide⟩

/-- Python slice followed by the drop from the slice's end rebuilds the
drop from its start. -/
theorem pySlice_append_drop {α : Type} (l : List α) (a b : Nat)
    (h : a ≤ b) : pySlice l a b ++ l.drop b = l.drop a := by
  unfold pySlice
  have h2 : (l.drop a).drop (b - a) = l.drop b := by
    rw [List.drop_drop]
    congr 1
    omega
  rw [← h2]
  exact List.take_append_drop _ _

/-- Joining the chops along a sorted index list ending at the sentinel
yields the drop from the first index. -/
theorem chop_cons_join (data : List Row) :
    ∀ (t : List Nat) (a : Nat), (a :: t).Pairwise (· ≤ ·) →
      t.getLast? = some (data.length + 1) →
      (chop data (a :: t)).flatten = data.drop a := by
  intro t
  induction t with
  | nil => intro a _ hlast; cases hlast
  | cons b t' ih =>
    intro a hpw hlast
    have hab : a ≤ b :=
      (List.pairwise_cons.mp hpw).1 b (List.mem_cons_self _ _)
    cases t' with
    | nil =>
      have hb : b = data.length + 1 := by
        simpa using hlast
      show (pySlice data a b :: chop data [b]).flatten = data.drop a
      simp only [chop, List.flatten_cons, List.flatten_nil,
        List.append_nil]
      unfold pySlice
      subst hb
      apply List.take_of_length_le
      rw [List.length_drop]
      omega
    | cons c t'' =>
      show (pySlice data a b :: chop data (b :: c :: t'')).flatten =
        data.drop a
      rw [List.flatten_cons]
      rw [ih b (List.pairwise_cons.mp hpw).2 hlast]
      exact pySlice_append_drop data a b hab

/-- The slice comprehension of `clean_data` equals the structural
`chop`. -/
theorem blocks_map_eq_chop (data : List Row) :
    ∀ idx : List Nat, (List.range (idx.length - 1)).map
      (fun x => pySlice data (idx.getD x 0) (idx.getD (x + 1) 0)) =
      chop data idx := by
  intro idx
  induction idx with
  | nil => rfl
  | cons a t ih =>
    cases t with
    | nil => rfl
    | cons b rest =>
      show (List.range (rest.length + 1)).map _ = _
      rw [List.range_succ_eq_map, List.map_cons, List.map_map]
      have harg : ((fun x => pySlice data ((a :: b :: rest).getD x 0)
          ((a :: b :: rest).getD (x + 1) 0)) ∘ Nat.succ) =
          fun x => pySlice data ((b :: rest).getD x 0)
            ((b :: rest).getD (x + 1) 0) := by
        funext x
        rfl
      rw [harg]
      show pySlice data a b :: _ = chop data (a :: b :: rest)
      have := ih
      simp only [List.length_cons, Nat.add_sub_cancel] at this ⊢
      rw [this]
      rfl

/-- `split_blocks` computes the chops along `get_process_indices`. -/
theorem split_blocks_eq_chop (data : List Row) :
    split_blocks data = chop data (get_process_indices data) := by
  unfold split_blocks
  exact blocks_map_eq_chop data (get_process_indices data)

/-- The marker indices are strictly increasing. -/
theorem markerIndices_sorted (data : List Row) :
    (markerIndices data).Pairwise (· < ·) :=
  (List.pairwise_lt_range _).filter _

/-- Every marker index is a row index of the input. -/
theorem markerIndices_mem_lt (data : List Row) :
    ∀ m ∈ markerIndices data, m < data.length := by
  intro m hm
  exact List.mem_range.mp (List.mem_filter.mp hm).1

/-- `get_process_indices` is weakly increasing. -/
theorem get_process_indices_pairwise_le (data : List Row) :
    (get_process_indices data).Pairwise (· ≤ ·) := by
  unfold get_process_indices
  rw [List.pairwise_append]
  refine ⟨(markerIndices_sorted data).imp Nat.le_of_lt,
    List.pairwise_singleton _ _, ?_⟩
  intro a ha b hb
  rcases List.mem_singleton.mp hb with rfl
  have := markerIndices_mem_lt data a ha
  omega

/-- C6 amended: the Segmenter yields exactly K blocks for K marker rows,
block `i` being `rows[idx[i] : idx[i+1]]` with the sentinel
`length + 1` appended; zero markers yield zero blocks; the blocks
concatenated reproduce the input from the first marker onward — a cover
with no overlap and no gap from there — and when the first marker
immediately follows the two header rows the headers plus the blocks
cover the entire input.  (Rows strictly between the headers and the
first marker belong to no block, which is the sole correction to the
claim.) -/
theorem C6_segmentation (data : List Row) :
    (split_blocks data).length = (markerIndices data).length ∧
    (∀ x, x < (markerIndices data).length →
      (split_blocks data).get? x = some (pySlice data
        ((get_process_indices data).getD x 0)
        ((get_process_indices data).getD (x + 1) 0))) ∧
    (markerIndices data = [] → split_blocks data = []) ∧
    (∀ m0 mt, markerIndices data = m0 :: mt →
      (split_blocks data).flatten = data.drop m0) ∧
    ((markerIndices data).head? = some 2 →
      data.take 2 ++ (split_blocks data).flatten = data) := by
  have hlen : (split_blocks data).length = (markerIndices data).length := by
    unfold split_blocks get_process_indices
    simp
  have hjoin : ∀ m0 mt, markerIndices data = m0 :: mt →
      (split_blocks data).flatten = data.drop m0 := by
    intro m0 mt hms
    rw [split_blocks_eq_chop]
    have hidx : get_process_indices data =
        m0 :: (mt ++ [data.length + 1]) := by
      unfold get_process_indices
      rw [hms]
      rfl
    rw [hidx]
    apply chop_cons_join
    · rw [← hidx]
      exact get_process_indices_pairwise_le data
    · rw [List.getLast?_append_of_ne_nil]
      · rfl
      · simp
  refine ⟨hlen, ?_, ?_, hjoin, ?_⟩
  · intro x hx
    unfold split_blocks
    rw [List.get?_eq_getElem?, List.getElem?_map, List.getElem?_range]
    · rfl
    · unfold get_process_indices
      simp only [List.length_append, List.length_singleton]
      omega
  · intro hms
    rw [← List.length_eq_zero, hlen, hms]
    rfl
  · intro hhead
    cases hms : markerIndices data with
    | nil => rw [hms] at hhead; cases hhead
    | cons m0 mt =>
      rw [hms] at hhead
      have hm0 : m0 = 2 := by
        simpa using hhead
      subst hm0
      rw [hjoin 2 mt hms]
      exact List.take_append_drop 2 data

/-- Witness for C6 amended on `rawW`, whose single marker row is at
index 2. -/
theorem C6_segmentation_witness :
    (split_blocks rawW).flatten = rawW.drop 2 ∧
    rawW.take 2 ++ (split_blocks rawW).flatten = rawW :=
  ⟨(C6_segmentation rawW).2.2.2.1 2 [] (by decide),
   (C6_segmentation rawW).2.2.2.2 (by decide)⟩

/-- Counterexample to C6 as stated: `cexC6` has exactly one marker row
and one block, but the two header rows plus the blocks do not cover the
input — row 2 is in no block. -/
theorem C6_coverage_counterexample :
    (markerIndices cexC6).length = 1 ∧ (split_blocks cexC6).length = 1 ∧
    cexC6.take 2 ++ (split_blocks cexC6).flatten ≠ cexC6 := by decide

/-- A successful `geoSlashRev` decomposes its (reversed) input into a
2–10 character uppercase geo group preceded by a slash. -/
theorem geoSlashRev_spec (l nm geo : List Char)
    (h : geoSlashRev l = some (nm, geo)) :
    l = geo.reverse ++ '/' :: nm.reverse ∧ 2 ≤ geo.length ∧
      geo.length ≤ 10 ∧ ∀ c ∈ geo, isUpperAZ c = true := by
  unfold geoSlashRev at h
  cases hdw : l.dropWhile isUpperAZ with
  | nil => rw [hdw] at h; cases h
  | cons c preRev =>
    rw [hdw] at h
    dsimp only at h
    by_cases hg : (c == '/' && decide (2 ≤ (l.takeWhile isUpperAZ).length)
        && decide ((l.takeWhile isUpperAZ).length ≤ 10)) = true
    · rw [if_pos hg] at h
      simp only [Except.ok.injEq, Option.some.injEq, Prod.mk.injEq] at h
      obtain ⟨hnm, hgeo⟩ := h
      simp only [Bool.and_eq_true, beq_iff_eq, decide_eq_true_eq] at hg
      obtain ⟨⟨hc, h2⟩, h10⟩ := hg
      subst hc
      have hl := (List.takeWhile_append_dropWhile isUpperAZ l).symm
      rw [hdw] at hl
      have hgeoRev : geo.reverse = l.takeWhile isUpperAZ := by
        rw [← hgeo, List.reverse_reverse]
      have hnmRev : nm.reverse = preRev := by
        rw [← hnm, List.reverse_reverse]
      refine ⟨?_, ?_, ?_, ?_⟩
      · rw [hgeoRev, hnmRev]; exact hl
      · rw [← List.length_reverse geo, hgeoRev]; exact h2
      · rw [← List.length_reverse geo, hgeoRev]; exact h10
      · intro ch hch
        have : ch ∈ geo.reverse := List.mem_reverse.mpr hch
        rw [hgeoRev] at this
        exact List.mem_takeWhile_imp this
    · rw [if_neg hg] at h; cases h

/-- C7: `detoxify` maps `"Electricity/CH U"` to `("Electricity", "CH")`
and maps `"Odd Name"` to itself with `False` and exactly one non-fatal
log warning; in general, on no regex match the input is returned
unchanged with one warning, and on a match the result is the name with
the trailing `/GEO(/I)? [SU]` suffix stripped, paired with the 2–10
letter uppercase geography code and no warning. -/
theorem C7_detoxify :
    detoxify "Electricity/CH U" = (("Electricity", some "CH"), 0) ∧
    detoxify "Odd Name" = (("Odd Name", none), 1) ∧
    (∀ s : String,
      (detoxMatch s.data = none → detoxify s = ((s, none), 1)) ∧
      (∀ nm geo, detoxMatch s.data = some (nm, geo) →
        detoxify s = ((String.mk nm, some (String.mk geo)), 0) ∧
        2 ≤ geo.length ∧ geo.length ≤ 10 ∧
        (∀ c ∈ geo, isUpperAZ c = true) ∧
        ∃ opt q, (opt = [] ∨ opt = ['/', 'I']) ∧ (q = 'S' ∨ q = 'U') ∧
          s.data = nm ++ '/' :: (geo ++ opt ++ [' ', q]))) := by
  refine ⟨by decide, by decide, ?_⟩
  intro s
  constructor
  · intro h
    unfold detoxify
    rw [h]
  · intro nm geo h
    have hdet : detoxify s = ((String.mk nm, some (String.mk geo)), 0) := by
      unfold detoxify
      rw [h]
    refine ⟨hdet, ?_⟩
    unfold detoxMatch at h
    cases hrev : s.data.reverse with
    | nil => rw [hrev] at h; cases h
    | cons q rest0 =>
      rw [hrev] at h
      have hsd0 : s.data = rest0.reverse ++ [q] := by
        have := congrArg List.reverse hrev
        rw [List.reverse_reverse] at this
        rw [this]
        simp
      cases rest0 with
      | nil => cases h
      | cons sp rest =>
        dsimp only at h
        by_cases hq : ((q == 'S' || q == 'U') && sp == ' ') = true
        · rw [if_pos hq] at h
          simp only [Bool.and_eq_true, Bool.or_eq_true, beq_iff_eq] at hq
          obtain ⟨hq', hsp⟩ := hq
          subst hsp
          have hsd : s.data = rest.reverse ++ [' ', q] := by
            rw [hsd0]
            simp
          -- branch B: the geo group abuts the space directly
          have hcaseB : geoSlashRev rest = some (nm, geo) →
              2 ≤ geo.length ∧ geo.length ≤ 10 ∧
              (∀ c ∈ geo, isUpperAZ c = true) ∧
              ∃ opt qc, (opt = [] ∨ opt = ['/', 'I']) ∧
                (qc = 'S' ∨ qc = 'U') ∧
                s.data = nm ++ '/' :: (geo ++ opt ++ [' ', qc]) := by
            intro hB
            obtain ⟨hrest, h2, h10, hup⟩ := geoSlashRev_spec rest nm geo hB
            refine ⟨h2, h10, hup, [], q, Or.inl rfl, hq', ?_⟩
            rw [hsd, hrest]
            simp
          cases rest with
          | nil =>
            dsimp only at h
            exact hcaseB h
          | cons i rest1 =>
            cases rest1 with
            | nil =>
              dsimp only at h
              exact hcaseB h
            | cons sl rest2 =>
              dsimp only at h
              by_cases hisl : (i == 'I' && sl == '/') = true
              · rw [if_pos hisl] at h
                cases hg2 : geoSlashRev rest2 with
                | some r =>
                    rw [hg2] at h
                    dsimp only at h
                    obtain rfl : r = (nm, geo) := by
                      cases h
                      rfl
                    simp only [Bool.and_eq_true, beq_iff_eq] at hisl
                    obtain ⟨hi, hsl⟩ := hisl
                    subst hi; subst hsl
                    obtain ⟨hrest2, h2, h10, hup⟩ :=
                      geoSlashRev_spec rest2 nm geo hg2
                    refine ⟨h2, h10, hup, ['/', 'I'], q, Or.inr rfl, hq', ?_⟩
                    rw [hsd, hrest2]
                    simp
                | none =>
                    rw [hg2] at h
                    dsimp only at h
                    exact hcaseB h
              · rw [if_neg hisl] at h
                exact hcaseB h
        · rw [if_neg hq] at h
          cases h

/-- Witness for C7's general clauses at concrete inputs: a match with
the optional `/I` qualifier, and a miss. -/
theorem C7_detoxify_witness :
    detoxify "Steel/DE/I S" = (("Steel", some "DE"), 0) ∧
    detoxify "Plain" = (("Plain", none), 1) :=
  ⟨((C7_detoxify.2.2 "Steel/DE/I S").2 "Steel".data "DE".data
      (by decide)).1,
   (C7_detoxify.2.2 "Plain").1 (by decide)⟩

end BW
